import Mathlib

/-!
Shallow embedding of the nvim-lsp-mcp diagnostics pipeline.

The sources embedded here are:
  * `internal/nvim/diagnostics.go` — `refreshWorkspaceDiagnostics` and
    `CollectDiagnostics` (validation, severity mapping, formatting);
  * `internal/nvim/discovery.go` — `DiscoverAndConnectByCwd`;
  * `internal/tools/read_lints.go` — `ReadLintsHandler`;
  * `internal/nvim/lua/filter_changed_files.lua` — the standalone
    changed-file filter script.

External effects (the git subprocess, the RPC calls to the Neovim
session) are modelled as explicit parameters describing the answer the
outside world gives; the remote buffer state is a list of per-buffer RPC
results.  JSON numbers (Go `float64`) carried by diagnostic items are
modelled as integers: the diagnostic fields (`severity`, `lnum`, `col`)
are integral in practice and the Go `int(float64)` truncation is the
identity on integral values.
-/

namespace NvimLspMcp

/-- Go `strings.HasPrefix(s, pre)`, modelled as list-prefix on the
character data of the two strings. -/
def hasPrefixStr (s pre : String) : Bool :=
  pre.data.isPrefixOf s.data

/-- Substring containment, used to state that an error message names a
value; modelled as list-infix on character data. -/
def containsStr (s sub : String) : Prop :=
  sub.data <:+: s.data

instance (s sub : String) : Decidable (containsStr s sub) :=
  List.decidableInfix sub.data s.data

/-- Go `strings.ToUpper`, modelled as the character-wise uppercase map
(the severity names it is applied to are ASCII). -/
def toUpperStr (s : String) : String :=
  ⟨s.data.map Char.toUpper⟩

/-- Go `strings.TrimSpace` (and `vim.trim`): drop whitespace from both
ends, modelled on character data. -/
def trimStr (s : String) : String :=
  ⟨((s.data.dropWhile Char.isWhitespace).reverse.dropWhile Char.isWhitespace).reverse⟩

/-- Splitting a string at newline characters, the shared model of Go
`strings.SplitSeq(s, "\n")` and of the newline case of `vim.fn.split`. -/
def splitLines (s : String) : List String :=
  (s.data.splitOn '\n').map List.asString

/-- One raw diagnostic item, the decoding of one `map[string]any` entry
of `vim.json.encode(vim.diagnostic.get(bufnr))`.  `severity`, `lnum` and
`col` are `none` when the field is absent or not a JSON number (the Go
type assertion `.(float64)` fails); `message` is `none` when absent or
not a string.  `source` is the result of the Go two-value assertion on
the source field, which yields `""` when absent or non-string; `code` is
the `fmt` rendering of the code field, `""` when the field is nil. -/
structure RawItem where
  severity : Option Int
  lnum : Option Int
  col : Option Int
  message : Option String
  source : String
  code : String

/-- One buffer of the remote session as seen through the RPC calls of
`CollectDiagnostics`: the result of `nvim_buf_is_valid` (`none` = the RPC
call itself failed), of `nvim_buf_get_name` (`none` = RPC failure), and
of `fetchBufferDiagnostics` (`none` = ExecLua or JSON decode failure). -/
structure Buffer where
  validResult : Option Bool
  nameResult : Option String
  itemsResult : Option (List RawItem)

/-- The severity switch of `CollectDiagnostics` (diagnostics.go lines
202-215): 1..4 map to error/warning/info/hint, anything else to
"unknown". -/
def severityName (s : Int) : String :=
  if s = 1 then "error"
  else if s = 2 then "warning"
  else if s = 3 then "info"
  else if s = 4 then "hint"
  else "unknown"

/-- The column default of the collection loop (diagnostics.go lines
223-227): 1 when the col field is absent, the zero-based value plus one
otherwise. -/
def colValue : Option Int → Int
  | none => 1
  | some c => c + 1

/-- The formatting step of the collection loop (diagnostics.go lines
241-247): `"<name>:<line>:<col>: <SEVERITY>: <msg>"` with the source
segment appended in parentheses when non-empty and the code segment in
brackets when non-empty. -/
def formatLine (name : String) (line col : Int) (sev msg src code : String) : String :=
  let f0 := name ++ ":" ++ toString line ++ ":" ++ toString col
    ++ ": " ++ toUpperStr sev ++ ": " ++ msg
  let f1 := if src ≠ "" then f0 ++ " (" ++ src ++ ")" else f0
  if code ≠ "" then f1 ++ " [" ++ code ++ "]" else f1

/-- The per-item body of the collection loop (diagnostics.go lines
197-249): drop the item when severity, line or message is missing or the
message is empty, otherwise emit one formatted line with the one-based
line and column. -/
def itemLine (name : String) (item : RawItem) : List String :=
  match item.severity with
  | none => []
  | some sev =>
    match item.lnum with
    | none => []
    | some lnum =>
      match item.message with
      | none => []
      | some msg =>
        if msg = "" then []
        else [formatLine name (lnum + 1) (colValue item.col) (severityName sev)
          msg item.source item.code]

/-- The per-buffer body of the collection loop (diagnostics.go lines
162-250): skip the buffer on `nvim_buf_is_valid` error or false, on
`nvim_buf_get_name` error, on unnamed buffers, on buffers not in the
requested file list (when that list is non-empty), and on diagnostics
fetch failure; otherwise emit the formatted line of every kept item. -/
def bufferLines (files : List String) (b : Buffer) : List String :=
  match b.validResult with
  | none => []
  | some valid =>
    if !valid then []
    else
      match b.nameResult with
      | none => []
      | some name =>
        if name = "" then []
        else if files.length > 0 && !files.contains name then []
        else
          match b.itemsResult with
          | none => []
          | some items => items.flatMap (itemLine name)

/-- `MaxFilesToReload` (diagnostics.go line 19). -/
def MaxFilesToReload : Nat := 100

/-- Go `filepath.Join(workspace, file)` as used on the output of the git
diff (diagnostics.go line 58): the workspace has no trailing slash and
git emits clean repo-relative paths, on which `Join` is concatenation
with a single separator. -/
def joinPath (workspace file : String) : String :=
  workspace ++ "/" ++ file

/-- Parsing of the `git diff --name-only HEAD` output (diagnostics.go
lines 55-61): trim, split on newlines, drop empty entries, join each
remaining relative path onto the workspace. -/
def gitChangedTargets (workspace out : String) : List String :=
  ((splitLines (trimStr out)).filter (fun f => f ≠ "")).map (joinPath workspace)

/-- The target-file resolution of `refreshWorkspaceDiagnostics`
(diagnostics.go lines 44-64): an empty request falls back to the git
diff, a non-empty request is used as given.  `gitResult` is the outcome
of the git subprocess, carrying its stdout on success. -/
def resolvedFiles (gitResult : Except Unit String) (files : List String)
    (workspace : String) : Except String (List String) :=
  if files.isEmpty then
    match gitResult with
    | .error _ => .error "failed to run git diff --name-only"
    | .ok out => .ok (gitChangedTargets workspace out)
  else .ok files

/-- `refreshWorkspaceDiagnostics` (diagnostics.go lines 43-106).
`execOk` is whether the reload/notify ExecLua call succeeds.  The first
component is the returned Go error; the second records the file list
passed to the reload/notify ExecLua call, `none` when that call was
never issued (git failure, or resolved count above the cap at lines
67-70, which logs a warning and returns nil). -/
def refreshWorkspaceDiagnostics (gitResult : Except Unit String)
    (files : List String) (workspace : String) (execOk : Bool) :
    Except String Unit × Option (List String) :=
  match resolvedFiles gitResult files workspace with
  | .error e => (.error e, none)
  | .ok filesToProcess =>
    if filesToProcess.length > MaxFilesToReload then (.ok (), none)
    else if execOk then (.ok (), some filesToProcess)
    else (.error "ExecLua failed", some filesToProcess)

/-- The workspace-prefix validation of `CollectDiagnostics`
(diagnostics.go lines 121-133): when the request names files, keep only
those prefixed by the workspace. -/
def validateFiles (workspace : String) (files : List String) : List String :=
  if files.length > 0 then files.filter (fun f => hasPrefixStr f workspace)
  else files

/-- `CollectDiagnostics` (diagnostics.go lines 109-254).  `cwdResult` is
the `GetCwd` RPC outcome, `bufsResult` the `nvim_list_bufs` outcome,
`gitResult` and `execOk` the refresh-step effects.  The refresh error is
logged and discarded (lines 141-144); the fixed settle sleep has no
observable effect and is not modelled. -/
def CollectDiagnostics (cwdResult : Except Unit String)
    (bufsResult : Except Unit (List Buffer)) (files : List String)
    (gitResult : Except Unit String) (execOk : Bool) : Except String String :=
  match cwdResult with
  | .error _ => .error "failed to get workspace"
  | .ok workspace =>
    let files := validateFiles workspace files
    let _refreshErr := refreshWorkspaceDiagnostics gitResult files workspace execOk
    match bufsResult with
    | .error _ => .error "nvim_list_bufs failed"
    | .ok bufs =>
      .ok (String.intercalate "\n" (bufs.flatMap (bufferLines files)))

/-- The error message of the workspace/cwd mismatch check
(read_lints.go line 77). -/
def mismatchMsg (workspace cwd : String) : String :=
  "nvim cwd mismatch: expected " ++ workspace ++ ", got " ++ cwd

/-- `ReadLintsHandler` (read_lints.go lines 51-90).  `attachOk` models
whether a session connection was obtained (environment variable or
discovery); the remaining parameters are threaded to
`CollectDiagnostics`.  The same session answers both the handler cwd
check and the one inside `CollectDiagnostics`, so `cwdResult` is
shared. -/
def readLintsHandler (workspace : String) (files : List String)
    (attachOk : Bool) (cwdResult : Except Unit String)
    (bufsResult : Except Unit (List Buffer))
    (gitResult : Except Unit String) (execOk : Bool) : Except String String :=
  if trimStr workspace = "" then .error "workspace is required"
  else if !attachOk then .error "failed to attach to Neovim"
  else
    match cwdResult with
    | .error _ => .error "failed to read Neovim cwd"
    | .ok cwd =>
      if cwd ≠ workspace then .error (mismatchMsg workspace cwd)
      else
        match CollectDiagnostics cwdResult bufsResult files gitResult execOk with
        | .error _ => .error "failed to collect diagnostics"
        | .ok out => .ok out

/-- One RPC connection opened during discovery, as seen through the only
call made on it, `GetCwd` (`none` = the getcwd query failed). -/
structure Conn where
  cwd : Option String

/-- One discovery candidate: its socket address and the outcome of
`nv.Dial` on it (`none` = dial failure). -/
structure Candidate where
  addr : String
  dial : Option Conn

/-- Whether a candidate matches the requested workspace: dial succeeded,
the working-directory query succeeded, and its answer equals the
workspace. -/
def candMatches (workspace : String) (c : Candidate) : Bool :=
  match c.dial with
  | none => false
  | some conn =>
    match conn.cwd with
    | none => false
    | some cwd => cwd == workspace

/-- `DiscoverAndConnectByCwd` (discovery.go lines 79-101), over the
ordered candidate list produced by `discoverSocketCandidates`.  The
first component is the returned client or error; the second records, in
discovery order, every candidate whose connection was opened and then
closed (Close on getcwd failure or on cwd mismatch).  A matching
candidate is returned immediately with its connection left open, the
remaining candidates untried. -/
def DiscoverAndConnectByCwd (workspace : String) :
    List Candidate → Except String Candidate × List Candidate
  | [] => (.error "no Neovim sessions found matching workspace cwd", [])
  | c :: rest =>
    match c.dial with
    | none => DiscoverAndConnectByCwd workspace rest
    | some conn =>
      match conn.cwd with
      | none =>
        let r := DiscoverAndConnectByCwd workspace rest
        (r.1, c :: r.2)
      | some cwd =>
        if cwd == workspace then (.ok c, [])
        else
          let r := DiscoverAndConnectByCwd workspace rest
          (r.1, c :: r.2)

/-- The environment of `filter_changed_files.lua`: the stdout of the git
diff run in the workspace, the filereadable answer per absolute path, the
filetype detection oracle (`vim.filetype.match` by filename with the
scratch-buffer content fallback, `""` when both fail), the extension of a
path as computed by fnamemodify, and the configured filetype list of
every active language-server client (`none` when the client has no
config). -/
structure LuaEnv where
  gitOut : String
  readable : String → Bool
  detect : String → String
  extOf : String → String
  clients : List (Option (List String))

/-- `skipExts` of filter_changed_files.lua (line 24): extensions whose
detection result must never be cached. -/
def skipExts : List String := ["conf"]

/-- `detectFiletype` of filter_changed_files.lua (lines 27-49) with its
per-extension cache threaded explicitly: return the cached filetype for
the extension when present, otherwise detect and cache (unless the
extension is in `skipExts`). -/
def detectFiletypeStep (env : LuaEnv) (cache : List (String × String))
    (path : String) : String × List (String × String) :=
  let ext := env.extOf path
  match cache.lookup ext with
  | some ft => (ft, cache)
  | none =>
    let ft := env.detect path
    if skipExts.contains ext then (ft, cache)
    else (ft, (ext, ft) :: cache)

/-- The path-processing loop of filter_changed_files.lua (lines 52-68):
for each relative changed path, form the absolute path, skip it when not
readable, otherwise record it with its detected filetype, threading the
detection cache.  `vim.fs.joinpath` plus the `:p` normalization is
modelled by `joinPath` (clean git-relative paths under a workspace
without trailing slash). -/
def absFilesAux (env : LuaEnv) (workspace : String)
    (cache : List (String × String)) : List String → List (String × String)
  | [] => []
  | rel :: rest =>
    if rel = "" then absFilesAux env workspace cache rest
    else
      let abs := joinPath workspace rel
      if !env.readable abs then absFilesAux env workspace cache rest
      else
        let p := detectFiletypeStep env cache abs
        (abs, p.1) :: absFilesAux env workspace p.2 rest

/-- The changed-file list seen by filter_changed_files.lua (lines 5-19):
trimmed git output split at newlines with empty entries dropped, as
`vim.fn.split` does. -/
def luaRelFiles (env : LuaEnv) : List String :=
  (splitLines (trimStr env.gitOut)).filter (fun f => f ≠ "")

/-- The supported-filetype check of filter_changed_files.lua (lines
70-80): a filetype is supported when some active client with a config
lists it in its configured filetypes. -/
def supportedFT (clients : List (Option (List String))) (ft : String) : Bool :=
  clients.any (fun c =>
    match c with
    | none => false
    | some fts => fts.contains ft)

/-- The filter/cap loop of filter_changed_files.lua (lines 86-99): keep
files whose filetype is supported while fewer than `maxFiles` have been
kept, appending in order. -/
def capFilter (supported : String → Bool) (maxFiles : Nat) :
    List (String × String) → List String → List String
  | [], acc => acc
  | f :: rest, acc =>
    if !supported f.2 then capFilter supported maxFiles rest acc
    else if acc.length < maxFiles then capFilter supported maxFiles rest (acc ++ [f.1])
    else capFilter supported maxFiles rest acc

/-- The JSON record returned by filter_changed_files.lua (lines
102-106). -/
structure FilterResult where
  filtered : List String
  origCount : Nat
  filteredCount : Nat

/-- `filter_changed_files.lua` end to end: split the git output, build
the readable changed files with their detected filetypes, then filter by
supported filetype with the `maxFiles` cap. -/
def filterChangedFiles (env : LuaEnv) (workspace : String) (maxFiles : Nat) :
    FilterResult :=
  let relFiles := luaRelFiles env
  let origCount := relFiles.length
  let absFiles := absFilesAux env workspace [] relFiles
  let filtered := capFilter (supportedFT env.clients) maxFiles absFiles []
  { filtered := filtered, origCount := origCount, filteredCount := filtered.length }

end NvimLspMcp

namespace NvimLspMcp

example : severityName 1 = "error" := by decide
example : severityName 5 = "unknown" := by decide

example :
    itemLine "/repo/a.go" ⟨some 1, some 4, some 2, some "undefined: foo", "", ""⟩
      = ["/repo/a.go:5:3: ERROR: undefined: foo"] := by decide

example :
    CollectDiagnostics (.ok "/repo")
      (.ok [⟨some true, some "/repo/a.go", some [⟨some 1, some 4, some 2, some "undefined: foo", "", ""⟩]⟩])
      ["/repo/a.go"] (.ok "") true
      = .ok "/repo/a.go:5:3: ERROR: undefined: foo" := rfl

example :
    gitChangedTargets "/repo" "a.go\nb.py\n" = ["/repo/a.go", "/repo/b.py"] := by decide

lemma hasPrefixStr_append (a t : String) : hasPrefixStr (a ++ t) a = true := by
  rw [hasPrefixStr, String.data_append, List.isPrefixOf_iff_prefix]
  exact List.prefix_append a.data t.data

lemma gitChangedTargets_prefix {ws out p : String}
    (h : p ∈ gitChangedTargets ws out) : hasPrefixStr p ws = true := by
  obtain ⟨rel, _hrel, rfl⟩ := List.mem_map.1 h
  rw [joinPath, String.append_assoc]
  exact hasPrefixStr_append ws ("/" ++ rel)

lemma containsStr_append_middle (a b c : String) : containsStr (a ++ b ++ c) b := by
  rw [containsStr, String.data_append, String.data_append]
  exact ⟨a.data, c.data, by simp⟩

lemma containsStr_append_right (a b : String) : containsStr (a ++ b) b := by
  rw [containsStr, String.data_append]
  exact ⟨a.data, [], by simp⟩

lemma validateFiles_not_mem {ws f : String} {files : List String}
    (hpre : hasPrefixStr f ws = false) : f ∉ validateFiles ws files ∨ files = [] := by
  rcases eq_or_ne files [] with h | h
  · exact Or.inr h
  · left
    rw [validateFiles, if_pos (List.length_pos.mpr h)]
    intro hmem
    have := (List.mem_filter.1 hmem).2
    rw [hpre] at this
    exact Bool.false_ne_true this

lemma bufferLines_skip_not_mem {files : List String} {b : Buffer} {f : String}
    (hne : files ≠ []) (hnm : f ∉ files) (hb : b.nameResult = some f) :
    bufferLines files b = [] := by
  rw [bufferLines]
  cases hv : b.validResult with
  | none => rfl
  | some valid =>
    cases valid with
    | false => rfl
    | true =>
      rw [hb]
      simp only [Bool.not_true, Bool.false_eq_true, if_false]
      by_cases hf : f = ""
      · rw [if_pos hf]
      · rw [if_neg hf, if_pos]
        rw [Bool.and_eq_true]
        constructor
        · simpa using List.length_pos.mpr hne
        · simpa using hnm

lemma capFilter_eq_append_take (s : String → Bool) (m : Nat)
    (l : List (String × String)) :
    ∀ acc : List String, acc.length ≤ m →
      capFilter s m l acc
        = acc ++ ((l.filter (fun f => s f.2)).map Prod.fst).take (m - acc.length) := by
  induction l with
  | nil => intro acc _; simp [capFilter]
  | cons f rest ih =>
    intro acc hacc
    by_cases hs : s f.2 = true
    · by_cases hlen : acc.length < m
      · have hle : (acc ++ [f.1]).length ≤ m := by
          simp only [List.length_append, List.length_singleton]
          omega
        simp only [capFilter, hs, Bool.not_true, Bool.false_eq_true, if_false, if_pos hlen]
        rw [ih (acc ++ [f.1]) hle]
        obtain ⟨k, hk⟩ : ∃ k, m - acc.length = k + 1 := ⟨m - acc.length - 1, by omega⟩
        have hk2 : m - (acc ++ [f.1]).length = k := by
          simp only [List.length_append, List.length_singleton]
          omega
        simp only [List.filter_cons, hs, if_true, List.map_cons, hk, hk2,
          List.take_succ_cons, List.append_assoc, List.singleton_append]
      · have h0 : m - acc.length = 0 := by omega
        simp only [capFilter, hs, Bool.not_true, Bool.false_eq_true, if_false, if_neg hlen]
        rw [ih acc hacc]
        simp only [List.filter_cons, hs, if_true, List.map_cons, h0, List.take_zero]
    · simp only [capFilter, hs, Bool.not_false, if_true]
      rw [ih acc hacc]
      simp only [List.filter_cons, hs, Bool.false_eq_true, if_false]

lemma capFilter_eq_take (s : String → Bool) (m : Nat) (l : List (String × String)) :
    capFilter s m l [] = ((l.filter (fun f => s f.2)).map Prod.fst).take m := by
  simpa using capFilter_eq_append_take s m l [] (Nat.zero_le m)

lemma itemLine_some_eq (name : String) (s l : Int) (c : Option Int)
    (msg src code : String) (hmsg : msg ≠ "") :
    itemLine name ⟨some s, some l, c, some msg, src, code⟩
      = [formatLine name (l + 1) (colValue c) (severityName s) msg src code] := by
  simp only [itemLine, if_neg hmsg]

lemma discover_fst (ws : String) (cands : List Candidate) :
    (DiscoverAndConnectByCwd ws cands).1
      = match cands.find? (candMatches ws) with
        | some c => .ok c
        | none => .error "no Neovim sessions found matching workspace cwd" := by
  induction cands with
  | nil => rfl
  | cons c rest ih =>
    cases hd : c.dial with
    | none =>
      have hm : candMatches ws c = false := by simp [candMatches, hd]
      rw [List.find?_cons_of_neg _ (by simp [hm])]
      simpa [DiscoverAndConnectByCwd, hd] using ih
    | some conn =>
      cases hc : conn.cwd with
      | none =>
        have hm : candMatches ws c = false := by simp [candMatches, hd, hc]
        rw [List.find?_cons_of_neg _ (by simp [hm])]
        simpa [DiscoverAndConnectByCwd, hd, hc] using ih
      | some cwd =>
        by_cases he : cwd = ws
        · have hm : candMatches ws c = true := by simp [candMatches, hd, hc, he]
          rw [List.find?_cons_of_pos _ hm]
          simp [DiscoverAndConnectByCwd, hd, hc, he]
        · have hm : candMatches ws c = false := by simp [candMatches, hd, hc, he]
          rw [List.find?_cons_of_neg _ (by simp [hm])]
          simpa [DiscoverAndConnectByCwd, hd, hc, he] using ih

lemma discover_snd (ws : String) (cands : List Candidate) :
    (DiscoverAndConnectByCwd ws cands).2
      = (cands.takeWhile (fun c => !candMatches ws c)).filter
          (fun c => c.dial.isSome) := by
  induction cands with
  | nil => rfl
  | cons c rest ih =>
    cases hd : c.dial with
    | none =>
      have hm : candMatches ws c = false := by simp [candMatches, hd]
      simp only [List.takeWhile_cons, hm, Bool.not_false, if_true, List.filter_cons,
        hd, Option.isSome_none, Bool.false_eq_true, if_false]
      simpa [DiscoverAndConnectByCwd, hd] using ih
    | some conn =>
      cases hc : conn.cwd with
      | none =>
        have hm : candMatches ws c = false := by simp [candMatches, hd, hc]
        simp only [List.takeWhile_cons, hm, Bool.not_false, if_true, List.filter_cons,
          hd, Option.isSome_some, if_true]
        simp only [DiscoverAndConnectByCwd, hd, hc]
        rw [ih]
      | some cwd =>
        by_cases he : cwd = ws
        · have hm : candMatches ws c = true := by simp [candMatches, hd, hc, he]
          simp [DiscoverAndConnectByCwd, hd, hc, he, List.takeWhile_cons, hm]
        · have hm : candMatches ws c = false := by simp [candMatches, hd, hc, he]
          simp only [List.takeWhile_cons, hm, Bool.not_false, if_true, List.filter_cons,
            hd, Option.isSome_some, if_true]
          simp only [DiscoverAndConnectByCwd, hd, hc, beq_iff_eq]
          rw [if_neg he]
          rw [ih]

/-- C4: the locator returns the first candidate in discovery order whose
reported working directory equals the requested workspace; every
connection opened for a non-matching candidate (working-directory query
failure or mismatch) is closed, and an individual dial failure never
aborts the scan of the remaining candidates. -/
theorem discovery_first_match_and_cleanup (ws : String) (cands : List Candidate)
    (c : Candidate) (hc : c.dial = none) :
    (DiscoverAndConnectByCwd ws cands).1
      = (match cands.find? (candMatches ws) with
        | some m => .ok m
        | none => .error "no Neovim sessions found matching workspace cwd")
    ∧ (DiscoverAndConnectByCwd ws cands).2
        = (cands.takeWhile (fun x => !candMatches ws x)).filter (fun x => x.dial.isSome)
    ∧ DiscoverAndConnectByCwd ws (c :: cands) = DiscoverAndConnectByCwd ws cands :=
  ⟨discover_fst ws cands, discover_snd ws cands, by simp only [DiscoverAndConnectByCwd, hc]⟩

/-- Candidate list for the C4 witness: a dial failure, a getcwd failure,
a cwd mismatch, a match, and an untried trailing candidate. -/
def discCands : List Candidate :=
  [⟨"b", some ⟨none⟩⟩, ⟨"c", some ⟨some "/x"⟩⟩, ⟨"d", some ⟨some "/w"⟩⟩, ⟨"e", none⟩]

/-- Witness for C4 at a concrete candidate list. -/
theorem discovery_first_match_and_cleanup_witness :
    (DiscoverAndConnectByCwd "/w" discCands).1 = .ok ⟨"d", some ⟨some "/w"⟩⟩
    ∧ (DiscoverAndConnectByCwd "/w" discCands).2
        = [⟨"b", some ⟨none⟩⟩, ⟨"c", some ⟨some "/x"⟩⟩]
    ∧ DiscoverAndConnectByCwd "/w" (⟨"a", none⟩ :: discCands)
        = DiscoverAndConnectByCwd "/w" discCands := by
  have h := discovery_first_match_and_cleanup "/w" discCands ⟨"a", none⟩ rfl
  refine ⟨?_, ?_, h.2.2⟩
  · rw [h.1]
    rfl
  · rw [h.2.1]
    rfl

/-- C1 counterexample: an item with numeric severity 5 is not dropped;
it is rendered with severity UNKNOWN in the formatted output. -/
theorem severity_unknown_rendered_cex :
    CollectDiagnostics (.ok "/repo")
      (.ok [⟨some true, some "/repo/b.go", some [⟨some 5, some 0, some 0, some "m", "", ""⟩]⟩])
      [] (.ok "") true = .ok "/repo/b.go:1:1: UNKNOWN: m"
    ∧ containsStr "/repo/b.go:1:1: UNKNOWN: m" "UNKNOWN" :=
  ⟨rfl, by decide⟩

/-- C1 (amended): collection maps numeric severities 1, 2, 3, 4 to
error, warning, info, hint; any other numeric severity maps to "unknown"
and the item is kept and rendered with that severity, not dropped. -/
theorem severity_mapping_amended (name : String) (s l : Int) (c : Option Int)
    (msg src code : String) (hmsg : msg ≠ "") :
    severityName 1 = "error" ∧ severityName 2 = "warning"
    ∧ severityName 3 = "info" ∧ severityName 4 = "hint"
    ∧ (s ≠ 1 → s ≠ 2 → s ≠ 3 → s ≠ 4 → severityName s = "unknown")
    ∧ itemLine name ⟨some s, some l, c, some msg, src, code⟩
        = [formatLine name (l + 1) (colValue c) (severityName s) msg src code] := by
  refine ⟨rfl, rfl, rfl, rfl, ?_, itemLine_some_eq name s l c msg src code hmsg⟩
  intro h1 h2 h3 h4
  simp [severityName, h1, h2, h3, h4]

/-- Witness for the amended C1 at severity 5. -/
theorem severity_mapping_amended_witness :
    severityName 5 = "unknown"
    ∧ itemLine "x" ⟨some 5, some 0, none, some "m", "", ""⟩
        = [formatLine "x" (0 + 1) (colValue none) (severityName 5) "m" "" ""] := by
  have h := severity_mapping_amended "x" 5 0 none "m" "" "" (by decide)
  exact ⟨h.2.2.2.2.1 (by decide) (by decide) (by decide) (by decide), h.2.2.2.2.2⟩

/-- C9: the end-to-end scenario (workspace `/repo`, one requested file,
one raw diagnostic with severity 1 at zero-based 4:2) produces exactly
the flattened line `/repo/a.go:5:3: ERROR: undefined: foo`; in general a
kept item with absent source and code renders with one-based positions
and no trailing parenthetical or bracket segment. -/
theorem flattened_format_scenario (name : String) (s l c : Int) (msg : String)
    (hmsg : msg ≠ "") :
    CollectDiagnostics (.ok "/repo")
      (.ok [⟨some true, some "/repo/a.go",
        some [⟨some 1, some 4, some 2, some "undefined: foo", "", ""⟩]⟩])
      ["/repo/a.go"] (.ok "") true = .ok "/repo/a.go:5:3: ERROR: undefined: foo"
    ∧ itemLine name ⟨some s, some l, some c, some msg, "", ""⟩
        = [name ++ ":" ++ toString (l + 1) ++ ":" ++ toString (c + 1)
            ++ ": " ++ toUpperStr (severityName s) ++ ": " ++ msg] := by
  refine ⟨rfl, ?_⟩
  rw [itemLine_some_eq name s l (some c) msg "" "" hmsg]
  simp [formatLine, colValue]

/-- Witness for C9 at concrete values. -/
theorem flattened_format_scenario_witness :
    CollectDiagnostics (.ok "/repo")
      (.ok [⟨some true, some "/repo/a.go",
        some [⟨some 1, some 4, some 2, some "undefined: foo", "", ""⟩]⟩])
      ["/repo/a.go"] (.ok "") true = .ok "/repo/a.go:5:3: ERROR: undefined: foo"
    ∧ itemLine "y" ⟨some 2, some 9, some 0, some "w", "", ""⟩
        = ["y" ++ ":" ++ toString (9 + 1 : Int) ++ ":" ++ toString (0 + 1 : Int)
            ++ ": " ++ toUpperStr (severityName 2) ++ ": " ++ "w"] :=
  flattened_format_scenario "y" 2 9 0 "w" (by decide)

/-- C8: a refresh-step failure (git diff failure or reload ExecLua
failure) never changes the request outcome; collection proceeds and
returns successfully regardless of the refresh effects. -/
theorem refresh_failure_not_fatal (ws : String) (bufs : List Buffer)
    (files : List String) (g₁ g₂ : Except Unit String) (e₁ e₂ : Bool) :
    CollectDiagnostics (.ok ws) (.ok bufs) files g₁ e₁
      = CollectDiagnostics (.ok ws) (.ok bufs) files g₂ e₂
    ∧ ∃ out, CollectDiagnostics (.ok ws) (.ok bufs) files g₁ e₁ = .ok out :=
  ⟨rfl, _, rfl⟩

lemma refresh_targets_cases (g : Except Unit String) (files : List String)
    (ws : String) (e : Bool) (l : List String)
    (hl : (refreshWorkspaceDiagnostics g files ws e).2 = some l) :
    l = files ∨ ∃ out, g = .ok out ∧ l = gitChangedTargets ws out := by
  unfold refreshWorkspaceDiagnostics resolvedFiles at hl
  by_cases hf : files.isEmpty
  · rw [if_pos hf] at hl
    cases g with
    | error u => simp at hl
    | ok out =>
      right
      refine ⟨out, rfl, ?_⟩
      by_cases hcap : (gitChangedTargets ws out).length > MaxFilesToReload
      · simp [hcap] at hl
      · cases e <;> simp [hcap] at hl <;> exact hl.symm
  · rw [if_neg hf] at hl
    left
    by_cases hcap : files.length > MaxFilesToReload
    · simp [hcap] at hl
    · cases e <;> simp [hcap] at hl <;> exact hl.symm

/-- C2 counterexample: with workspace `/repo` and the single requested
file `/other/x.go` (not workspace-prefixed, so dropped by validation),
the collection falls back to unscoped mode and the formatted output does
contain a line for exactly that path. -/
theorem workspace_filter_cex :
    hasPrefixStr "/other/x.go" "/repo" = false
    ∧ CollectDiagnostics (.ok "/repo")
        (.ok [⟨some true, some "/other/x.go", some [⟨some 1, some 0, some 0, some "m", "", ""⟩]⟩])
        ["/other/x.go"] (.ok "") true = .ok "/other/x.go:1:1: ERROR: m" :=
  ⟨by decide, rfl⟩

/-- C2 (amended): a requested path not prefixed by the workspace is never
passed to the reload call (in either refresh branch), and, provided at
least one requested file survives validation, no collected line comes
from a buffer named by the dropped path.  When every requested file is
dropped, the collection falls back to the unscoped behavior and the path
can reappear in the output. -/
theorem workspace_filter_amended (ws f : String) (files : List String)
    (bufs : List Buffer) (g : Except Unit String) (e : Bool)
    (hf : f ∈ files) (hpre : hasPrefixStr f ws = false) :
    (∀ l, (refreshWorkspaceDiagnostics g (validateFiles ws files) ws e).2 = some l
      → f ∉ l)
    ∧ (validateFiles ws files ≠ [] →
        ∀ b ∈ bufs, b.nameResult = some f
          → bufferLines (validateFiles ws files) b = []) := by
  have hnef : files ≠ [] := List.ne_nil_of_mem hf
  have hnotmem : f ∉ validateFiles ws files :=
    (validateFiles_not_mem hpre).resolve_right hnef
  constructor
  · intro l hl
    rcases refresh_targets_cases g (validateFiles ws files) ws e l hl with
      rfl | ⟨out, _, rfl⟩
    · exact hnotmem
    · intro hmem
      have := gitChangedTargets_prefix hmem
      rw [hpre] at this
      exact Bool.false_ne_true this
  · intro hvne b _hb hname
    exact bufferLines_skip_not_mem hvne hnotmem hname

/-- Witness for the amended C2: one requested file survives validation,
the other is dropped and excluded from reload targets and output. -/
theorem workspace_filter_amended_witness :
    (∀ l, (refreshWorkspaceDiagnostics (.ok "")
        (validateFiles "/repo" ["/repo/a.go", "/other/x.go"]) "/repo" true).2 = some l
      → "/other/x.go" ∉ l)
    ∧ bufferLines (validateFiles "/repo" ["/repo/a.go", "/other/x.go"])
        ⟨some true, some "/other/x.go", some []⟩ = [] := by
  have h := workspace_filter_amended "/repo" "/other/x.go"
    ["/repo/a.go", "/other/x.go"] [⟨some true, some "/other/x.go", some []⟩]
    (.ok "") true (by simp) (by decide)
  exact ⟨h.1, h.2 (by decide) ⟨some true, some "/other/x.go", some []⟩ (by simp) rfl⟩

/-- Environment for the C3 counterexample: one changed file `a.conf`
whose detected filetype `conf` is served by no client (there are no
active clients at all). -/
def confEnv : LuaEnv :=
  { gitOut := "a.conf", readable := fun _ => true, detect := fun _ => "conf",
    extOf := fun _ => "conf", clients := [] }

/-- C3 counterexample: the pipeline refresh target set contains the
changed file even though its detected filetype is served by no active
client; the filtering claimed by the spec exists only in the standalone
filter script, which does exclude it. -/
theorem changed_file_filter_cex :
    (refreshWorkspaceDiagnostics (.ok "a.conf") [] "/repo" true).2 = some ["/repo/a.conf"]
    ∧ (filterChangedFiles confEnv "/repo" 100).filtered = []
    ∧ supportedFT confEnv.clients "conf" = false :=
  ⟨rfl, rfl, rfl⟩

/-- C3 (amended): when the explicit list is empty, the refresher target
set is the whole git-diff-derived changed file list joined onto the
workspace, with no filetype filtering; the supported-filetype filter
exists only in the standalone filter_changed_files script, every output
path of which is a recorded changed file whose detected filetype is
served by at least one active client. -/
theorem changed_file_filter_amended (ws out : String) (e : Bool)
    (env : LuaEnv) (m : Nat)
    (hcap : (gitChangedTargets ws out).length ≤ MaxFilesToReload) :
    (refreshWorkspaceDiagnostics (.ok out) [] ws e).2 = some (gitChangedTargets ws out)
    ∧ ∀ p ∈ (filterChangedFiles env ws m).filtered,
        ∃ ft, (p, ft) ∈ absFilesAux env ws [] (luaRelFiles env)
          ∧ supportedFT env.clients ft = true := by
  constructor
  · unfold refreshWorkspaceDiagnostics resolvedFiles
    simp only [List.isEmpty_nil, if_true]
    rw [if_neg (by omega)]
    cases e <;> rfl
  · intro p hp
    simp only [filterChangedFiles] at hp
    rw [capFilter_eq_take] at hp
    have hp2 := List.take_subset _ _ hp
    obtain ⟨a, ha, hap⟩ := List.mem_map.1 hp2
    have ha2 := List.mem_filter.1 ha
    refine ⟨a.2, ?_, by simpa using ha2.2⟩
    rw [← hap]
    simpa using ha2.1

/-- Environment for the C3 and C6 witnesses: changed Go files served by
one active client. -/
def goEnv : LuaEnv :=
  { gitOut := "a.go\nb.go", readable := fun _ => true, detect := fun _ => "go",
    extOf := fun _ => "go", clients := [some ["go"]] }

/-- Witness for the amended C3 at a concrete environment. -/
theorem changed_file_filter_amended_witness :
    (refreshWorkspaceDiagnostics (.ok "a.go\nb.go") [] "/w" true).2
      = some (gitChangedTargets "/w" "a.go\nb.go")
    ∧ ∀ p ∈ (filterChangedFiles goEnv "/w" 100).filtered,
        ∃ ft, (p, ft) ∈ absFilesAux goEnv "/w" [] (luaRelFiles goEnv)
          ∧ supportedFT goEnv.clients ft = true :=
  changed_file_filter_amended "/w" "a.go\nb.go" true goEnv 100 (by decide)

/-- C5: when the resolved refresh set (explicit-validated or inferred)
exceeds MaxFilesToReload, the refresh is skipped entirely — no
reload/notify ExecLua call is issued — and reports success (nil error),
while collection still proceeds and returns the formatted output. -/
theorem cap_skips_refresh (g : Except Unit String) (ws : String)
    (files : List String) (e : Bool) (bufs : List Buffer) (ftp : List String)
    (hftp : resolvedFiles g (validateFiles ws files) ws = .ok ftp)
    (hcap : ftp.length > MaxFilesToReload) :
    refreshWorkspaceDiagnostics g (validateFiles ws files) ws e = (.ok (), none)
    ∧ CollectDiagnostics (.ok ws) (.ok bufs) files g e
        = .ok (String.intercalate "\n"
            (bufs.flatMap (bufferLines (validateFiles ws files)))) := by
  constructor
  · unfold refreshWorkspaceDiagnostics
    rw [hftp]
    simp [hcap]
  · rfl

/-- Witness for C5 at 101 explicit workspace-prefixed files. -/
theorem cap_skips_refresh_witness :
    refreshWorkspaceDiagnostics (.ok "")
        (validateFiles "/w" (List.replicate 101 "/w/a.go")) "/w" true = (.ok (), none)
    ∧ CollectDiagnostics (.ok "/w") (.ok []) (List.replicate 101 "/w/a.go") (.ok "") true
        = .ok (String.intercalate "\n"
            (([] : List Buffer).flatMap
              (bufferLines (validateFiles "/w" (List.replicate 101 "/w/a.go"))))) :=
  cap_skips_refresh (.ok "") "/w" (List.replicate 101 "/w/a.go") true []
    (List.replicate 101 "/w/a.go") rfl (by decide)

/-- C6 counterexample: 101 resolved files are not truncated to 100 and
refreshed; the refresh is skipped entirely (no reload call is issued). -/
theorem cap_truncation_cex :
    (refreshWorkspaceDiagnostics (.ok "") (List.replicate 101 "/repo/a.go") "/repo" true).2
      = none
    ∧ MaxFilesToReload < (List.replicate 101 "/repo/a.go").length :=
  ⟨rfl, by decide⟩

/-- C6 (amended): a resolved refresh count above the maximum makes the
Go refresher skip the refresh entirely rather than truncate; truncation
to the maximum exists only in the standalone filter_changed_files
script, whose filtered list is the first maxFiles supported changed
files in order and whose returned record carries the original count and
the filtered count. -/
theorem cap_truncation_amended (g : Except Unit String) (ws : String)
    (files : List String) (e : Bool) (env : LuaEnv) (m : Nat) (ftp : List String)
    (hftp : resolvedFiles g files ws = .ok ftp)
    (hcap : ftp.length > MaxFilesToReload) :
    refreshWorkspaceDiagnostics g files ws e = (.ok (), none)
    ∧ (filterChangedFiles env ws m).filtered
        = (((absFilesAux env ws [] (luaRelFiles env)).filter
            (fun f => supportedFT env.clients f.2)).map Prod.fst).take m
    ∧ (filterChangedFiles env ws m).filteredCount
        = (filterChangedFiles env ws m).filtered.length
    ∧ (filterChangedFiles env ws m).origCount = (luaRelFiles env).length := by
  refine ⟨?_, ?_, rfl, rfl⟩
  · unfold refreshWorkspaceDiagnostics
    rw [hftp]
    simp [hcap]
  · simp only [filterChangedFiles]
    exact capFilter_eq_take _ m _

/-- Witness for the amended C6: two supported changed files truncated to
a maximum of one. -/
theorem cap_truncation_amended_witness :
    refreshWorkspaceDiagnostics (.ok "") (List.replicate 101 "/w/b.go") "/w" true
      = (.ok (), none)
    ∧ (filterChangedFiles goEnv "/w" 1).filtered
        = (((absFilesAux goEnv "/w" [] (luaRelFiles goEnv)).filter
            (fun f => supportedFT goEnv.clients f.2)).map Prod.fst).take 1
    ∧ (filterChangedFiles goEnv "/w" 1).filteredCount
        = (filterChangedFiles goEnv "/w" 1).filtered.length
    ∧ (filterChangedFiles goEnv "/w" 1).origCount = (luaRelFiles goEnv).length :=
  cap_truncation_amended (.ok "") "/w" (List.replicate 101 "/w/b.go") true goEnv 1
    (List.replicate 101 "/w/b.go") rfl (by decide)

/-- C7: when a session is reached but its reported working directory is
not string-equal to the requested workspace, the request fails with an
error whose message contains both the expected workspace and the actual
working directory, and the result does not depend on the buffer state at
all — no diagnostics are collected or returned. -/
theorem cwd_mismatch_fatal (ws cwd : String) (files : List String)
    (bufsResult : Except Unit (List Buffer)) (g : Except Unit String) (e : Bool)
    (hws : trimStr ws ≠ "") (hne : cwd ≠ ws) :
    readLintsHandler ws files true (.ok cwd) bufsResult g e
      = .error (mismatchMsg ws cwd)
    ∧ containsStr (mismatchMsg ws cwd) ws
    ∧ containsStr (mismatchMsg ws cwd) cwd
    ∧ ∀ b₂ : Except Unit (List Buffer),
        readLintsHandler ws files true (.ok cwd) b₂ g e
          = readLintsHandler ws files true (.ok cwd) bufsResult g e := by
  have hmain : ∀ b₂ : Except Unit (List Buffer),
      readLintsHandler ws files true (.ok cwd) b₂ g e
        = .error (mismatchMsg ws cwd) := by
    intro b₂
    unfold readLintsHandler
    rw [if_neg hws]
    simp only [Bool.not_true, Bool.false_eq_true, if_false]
    rw [if_pos hne]
  refine ⟨hmain bufsResult, ?_, ?_, fun b₂ => (hmain b₂).trans (hmain bufsResult).symm⟩
  · show containsStr ("nvim cwd mismatch: expected " ++ ws ++ ", got " ++ cwd) ws
    rw [String.append_assoc ("nvim cwd mismatch: expected " ++ ws) ", got " cwd]
    exact containsStr_append_middle _ _ _
  · show containsStr ("nvim cwd mismatch: expected " ++ ws ++ ", got " ++ cwd) cwd
    exact containsStr_append_right _ cwd

/-- Witness for C7 with workspace `/repo` and session cwd `/other`. -/
theorem cwd_mismatch_fatal_witness :
    readLintsHandler "/repo" [] true (.ok "/other") (.ok []) (.ok "") true
      = .error (mismatchMsg "/repo" "/other")
    ∧ containsStr (mismatchMsg "/repo" "/other") "/repo"
    ∧ containsStr (mismatchMsg "/repo" "/other") "/other"
    ∧ ∀ b₂ : Except Unit (List Buffer),
        readLintsHandler "/repo" [] true (.ok "/other") b₂ (.ok "") true
          = readLintsHandler "/repo" [] true (.ok "/other") (.ok []) (.ok "") true :=
  cwd_mismatch_fatal "/repo" "/other" [] (.ok []) (.ok "") true
    (by decide) (by decide)

/-- C10: when every explicitly requested file is dropped by the
workspace-prefix filter, the validated list is empty and the request
behaves exactly as an unscoped one: the refresh falls back to the
git-diff branch and the collection is the unscoped collection over all
named buffers. -/
theorem all_dropped_falls_back_unscoped (ws : String) (files : List String)
    (bufs : List Buffer) (g : Except Unit String) (e : Bool)
    (hne : files ≠ []) (hall : ∀ f ∈ files, hasPrefixStr f ws = false) :
    validateFiles ws files = []
    ∧ refreshWorkspaceDiagnostics g (validateFiles ws files) ws e
        = refreshWorkspaceDiagnostics g [] ws e
    ∧ CollectDiagnostics (.ok ws) (.ok bufs) files g e
        = CollectDiagnostics (.ok ws) (.ok bufs) [] g e := by
  have h0 : validateFiles ws files = [] := by
    rw [validateFiles, if_pos (List.length_pos.mpr hne)]
    rw [List.filter_eq_nil_iff]
    intro a ha
    simp [hall a ha]
  have h1 : validateFiles ws ([] : List String) = [] := rfl
  refine ⟨h0, by rw [h0], ?_⟩
  simp only [CollectDiagnostics, h0, h1]

/-- Witness for C10: one requested file outside the workspace, one named
buffer; the run equals the unscoped run. -/
theorem all_dropped_falls_back_unscoped_witness :
    validateFiles "/repo" ["/elsewhere/y.go"] = []
    ∧ refreshWorkspaceDiagnostics (.ok "c.go") (validateFiles "/repo" ["/elsewhere/y.go"])
        "/repo" true
        = refreshWorkspaceDiagnostics (.ok "c.go") [] "/repo" true
    ∧ CollectDiagnostics (.ok "/repo")
        (.ok [⟨some true, some "/repo/c.go", some [⟨some 2, some 1, some 0, some "w", "", ""⟩]⟩])
        ["/elsewhere/y.go"] (.ok "c.go") true
        = CollectDiagnostics (.ok "/repo")
            (.ok [⟨some true, some "/repo/c.go", some [⟨some 2, some 1, some 0, some "w", "", ""⟩]⟩])
            [] (.ok "c.go") true :=
  all_dropped_falls_back_unscoped "/repo" ["/elsewhere/y.go"]
    [⟨some true, some "/repo/c.go", some [⟨some 2, some 1, some 0, some "w", "", ""⟩]⟩]
    (.ok "c.go") true (by decide) (by decide)

end NvimLspMcp
